import Mathlib

/-!
Verification of the guest-cart logic of a multi-vendor marketplace storefront.

The definitions below are a shallow embedding of the client-side cart code:

* `GuestCartItem`, `addGuestItem`, `removeGuestItem`, `updateGuestItemQuantity`,
  `clearGuestCart`, `getGuestCartTotal`, `getGuestItemCount` embed the local
  (guest) cart store in `src/frontend/store/cart-store.ts`.
* `parseFloatQ` models the JavaScript `parseFloat` builtin on decimal numerals,
  with exact rational semantics; `none` plays the role of `NaN`.  The special
  strings `Infinity` and `-Infinity`, and binary floating-point rounding, are
  not modelled (no claim depends on them; all concrete prices used below are
  exactly representable doubles, on which `parseFloat` is exact).
* `jsAdd` and `jsMul` are JavaScript `+` and `*` on numbers, with `NaN`
  propagation.
* `cartPage_calculateTotal`, `checkoutPage_calculateTotal`,
  `navbar_itemCount` embed the corresponding subtotal / badge computations of
  the cart page, the checkout page and the navbar.
* `checkoutMutation_guestCartAfter` embeds the effect of the checkout
  mutation's settlement handlers (`onSuccess` / `onError`) on the guest cart.
* `AppState`, `appStep`, `runSteps` embed the authentication / cart-store
  transition system (login and logout from the auth store next to the cart
  store; neither touches the guest item list).
-/

namespace MarketCart

/-- A guest cart line item, from the `GuestCartItem` interface of the cart
store.  Quantities are JavaScript numbers used as integers. -/
structure GuestCartItem where
  sku : String
  sku_id : String
  product_id : String
  product_name : String
  product_price : String
  product_image : Option String := none
  quantity : Int
  vendor_name : Option String := none
deriving DecidableEq, Repr

/-- The `addGuestItem` action of the cart store: if a line with the same `sku`
exists, every matching line's quantity is incremented by the added item's
quantity (via `map`); otherwise the item is appended at the end. -/
def addGuestItem (items : List GuestCartItem) (item : GuestCartItem) :
    List GuestCartItem :=
  if (items.find? (fun i => i.sku == item.sku)).isSome then
    items.map (fun i =>
      if i.sku == item.sku then { i with quantity := i.quantity + item.quantity } else i)
  else
    items ++ [item]

/-- The `removeGuestItem` action: keep the lines whose `sku` differs. -/
def removeGuestItem (items : List GuestCartItem) (sku : String) :
    List GuestCartItem :=
  items.filter (fun i => i.sku != sku)

/-- The `updateGuestItemQuantity` action: set the quantity of every line whose
`sku` matches to exactly `quantity` (the store performs no sign check). -/
def updateGuestItemQuantity (items : List GuestCartItem) (sku : String)
    (quantity : Int) : List GuestCartItem :=
  items.map (fun i => if i.sku == sku then { i with quantity := quantity } else i)

/-- The `clearGuestCart` action: replace the line list by the empty list. -/
def clearGuestCart (_items : List GuestCartItem) : List GuestCartItem := []

/-- Decimal digit test. -/
def isDigitChar (c : Char) : Bool := '0' ≤ c && c ≤ '9'

/-- Read a maximal run of decimal digits: returns the value read, the number of
digits consumed, and the rest of the input. -/
def readDigits : List Char → Nat → Nat → Nat × Nat × List Char
  | c :: cs, acc, n =>
    if isDigitChar c then readDigits cs (acc * 10 + (c.toNat - '0'.toNat)) (n + 1)
    else (acc, n, c :: cs)
  | [], acc, n => (acc, n, [])

/-- Read an unsigned decimal mantissa `digits [ '.' digits ]`; at least one
digit must be present overall, trailing garbage is ignored (as `parseFloat`
does). -/
def readMantissa (cs : List Char) : Option (ℚ × List Char) :=
  let r := readDigits cs 0 0
  match r.2.2 with
  | '.' :: r2 =>
    let rf := readDigits r2 0 0
    if r.2.1 = 0 ∧ rf.2.1 = 0 then none
    else some ((r.1 : ℚ) + (rf.1 : ℚ) / (10 : ℚ) ^ rf.2.1, rf.2.2)
  | _ => if r.2.1 = 0 then none else some ((r.1 : ℚ), r.2.2)

/-- Read an optional exponent part `('e' | 'E') [sign] digits`; as in
`parseFloat`, an `e` not followed by at least one digit is ignored. -/
def readExponent (cs : List Char) : Int :=
  match cs with
  | c :: r1 =>
    if c = 'e' ∨ c = 'E' then
      match r1 with
      | '+' :: r2 => let r := readDigits r2 0 0; if r.2.1 = 0 then 0 else (r.1 : Int)
      | '-' :: r2 => let r := readDigits r2 0 0; if r.2.1 = 0 then 0 else -(r.1 : Int)
      | r2 => let r := readDigits r2 0 0; if r.2.1 = 0 then 0 else (r.1 : Int)
    else 0
  | [] => 0

/-- Model of the JavaScript `parseFloat` builtin on decimal numerals: skip
leading whitespace, read an optional sign, a decimal mantissa and an optional
exponent; `none` models `NaN` (returned when no digit can be read). -/
def parseFloatQ (s : String) : Option ℚ :=
  let cs := s.data.dropWhile (fun c =>
    c = ' ' ∨ c = '\t' ∨ c = '\n' ∨ c = '\r' ∨ c = '\x0c' ∨ c = '\x0b')
  let signed : ℚ × List Char :=
    match cs with
    | '-' :: r => (-1, r)
    | '+' :: r => (1, r)
    | _ => (1, cs)
  match readMantissa signed.2 with
  | none => none
  | some m => some (signed.1 * m.1 * (10 : ℚ) ^ readExponent m.2)

/-- JavaScript addition on numbers, with `NaN` (modelled `none`) propagation. -/
def jsAdd : Option ℚ → Option ℚ → Option ℚ
  | some a, some b => some (a + b)
  | _, _ => none

/-- JavaScript multiplication on numbers, with `NaN` propagation. -/
def jsMul : Option ℚ → Option ℚ → Option ℚ
  | some a, some b => some (a * b)
  | _, _ => none

/-- The `getGuestCartTotal` selector: a left fold of
`total + parseFloat(item.product_price) * item.quantity` over the lines,
starting from `0`. -/
def getGuestCartTotal (items : List GuestCartItem) : Option ℚ :=
  items.foldl
    (fun total item =>
      jsAdd total (jsMul (parseFloatQ item.product_price) (some (item.quantity : ℚ))))
    (some 0)

/-- The `getGuestItemCount` selector: the left fold of quantities. -/
def getGuestItemCount (items : List GuestCartItem) : Int :=
  items.foldl (fun count item => count + item.quantity) 0

/-- A line of the authenticated (remote) cart, as consumed by the pages: only
the fields the subtotal / count computations read. -/
structure RemoteCartItem where
  unit_price : String
  quantity : Int
deriving DecidableEq, Repr

/-- The remote cart payload; `none` at use sites models `cart` being
`undefined` (query not yet resolved). -/
structure RemoteCart where
  items : List RemoteCartItem
deriving DecidableEq, Repr

/-- The cart page's `calculateTotal`: authenticated regime reduces
`parseFloat(item.unit_price) * item.quantity` over the remote cart (`0` when
the cart is absent); guest regime delegates to the store's
`getGuestCartTotal`. -/
def cartPage_calculateTotal (isAuthenticated : Bool) (cart : Option RemoteCart)
    (guestItems : List GuestCartItem) : Option ℚ :=
  if isAuthenticated then
    match cart with
    | none => some 0
    | some c =>
      c.items.foldl
        (fun total item =>
          jsAdd total (jsMul (parseFloatQ item.unit_price) (some (item.quantity : ℚ))))
        (some 0)
  else
    getGuestCartTotal guestItems

/-- The checkout page's `calculateTotal`: same remote reduction when
authenticated; in the guest regime it inlines the reduce over `guestItems`
instead of calling the store selector. -/
def checkoutPage_calculateTotal (isAuthenticated : Bool) (cart : Option RemoteCart)
    (guestItems : List GuestCartItem) : Option ℚ :=
  if isAuthenticated then
    match cart with
    | none => some 0
    | some c =>
      c.items.foldl
        (fun total item =>
          jsAdd total (jsMul (parseFloatQ item.unit_price) (some (item.quantity : ℚ))))
        (some 0)
  else
    guestItems.foldl
      (fun total item =>
        jsAdd total (jsMul (parseFloatQ item.product_price) (some (item.quantity : ℚ))))
      (some 0)

/-- The navbar's guest badge count: the reduce over `guestItems` when the
shopper is not authenticated, `0` otherwise. -/
def navbar_guestCount (isAuthenticated : Bool) (guestItems : List GuestCartItem) : Int :=
  if !isAuthenticated then guestItems.foldl (fun count item => count + item.quantity) 0
  else 0

/-- The navbar's badge `itemCount`: authenticated regime folds the remote
quantities, with the JavaScript `|| 0` fallback (which maps a falsy `0` result
to `0` and leaves other integers unchanged, and yields `0` when the cart is
absent); guest regime uses `navbar_guestCount`. -/
def navbar_itemCount (isAuthenticated : Bool) (cart : Option RemoteCart)
    (guestItems : List GuestCartItem) : Int :=
  if isAuthenticated then
    match cart with
    | none => 0
    | some c =>
      let s := c.items.foldl (fun count item => count + item.quantity) 0
      if s == 0 then 0 else s
  else
    navbar_guestCount isAuthenticated guestItems

/-- The checkout response body: a Stripe redirect URL or an immediate order
id. -/
structure CheckoutResponse where
  checkout_url : Option String := none
  order_id : Option String := none
deriving DecidableEq, Repr

/-- Effect of the checkout mutation's settlement on the guest cart, from the
mutation's handlers: `onSuccess` calls `clearGuestCart` exactly when the
shopper is not authenticated; `onError` only raises a toast and logs, leaving
the cart untouched. -/
def checkoutMutation_guestCartAfter (isAuthenticated : Bool)
    (guestItems : List GuestCartItem) (result : Except String CheckoutResponse) :
    List GuestCartItem :=
  match result with
  | Except.ok _ => if !isAuthenticated then clearGuestCart guestItems else guestItems
  | Except.error _ => guestItems

/-- Joint client state: the auth store's `isAuthenticated` flag next to the
cart store's persisted `guestItems`. -/
structure AppState where
  isAuthenticated : Bool
  guestItems : List GuestCartItem
deriving DecidableEq, Repr

/-- The observable client steps: the four cart-store actions, plus a
successful login (auth store sets `isAuthenticated`; no cart-store call is
made anywhere on this path) and a logout (auth store resets the user; again
no cart-store call). -/
inductive AppStep where
  | addItem (item : GuestCartItem)
  | removeItem (sku : String)
  | updateQuantity (sku : String) (q : Int)
  | clearCart
  | login
  | logout
deriving DecidableEq, Repr

/-- One transition of the client state. -/
def appStep (s : AppState) : AppStep → AppState
  | AppStep.addItem i => { s with guestItems := addGuestItem s.guestItems i }
  | AppStep.removeItem sku => { s with guestItems := removeGuestItem s.guestItems sku }
  | AppStep.updateQuantity sku q =>
      { s with guestItems := updateGuestItemQuantity s.guestItems sku q }
  | AppStep.clearCart => { s with guestItems := clearGuestCart s.guestItems }
  | AppStep.login => { s with isAuthenticated := true }
  | AppStep.logout => { s with isAuthenticated := false }

/-- The initial client state: unauthenticated, empty guest cart. -/
def initialState : AppState := { isAuthenticated := false, guestItems := [] }

/-- Run a sequence of steps. -/
def runSteps (s : AppState) (steps : List AppStep) : AppState :=
  steps.foldl appStep s

/-- Fixture builder for concrete scenarios. -/
def mkItem (sku sku_id product_id product_name product_price : String)
    (quantity : Int) : GuestCartItem :=
  { sku := sku, sku_id := sku_id, product_id := product_id,
    product_name := product_name, product_price := product_price,
    quantity := quantity }

/-- Fixture: the spec's T-shirt line. -/
def itemTshirt : GuestCartItem := mkItem "TSHIRT-M" "s1" "p1" "T-Shirt M" "19.99" 1

/-- Fixture: a line priced "10.00", quantity 2. -/
def itemTen : GuestCartItem := mkItem "SKU-10" "s2" "p2" "Mug" "10.00" 2

/-- Fixture: a line priced "5.50", quantity 1. -/
def itemFive : GuestCartItem := mkItem "SKU-5" "s3" "p3" "Pen" "5.50" 1

/-- Fixture: a line whose persisted price string is corrupt. -/
def itemBad : GuestCartItem := mkItem "SKU-BAD" "s4" "p4" "Ghost" "abc" 1

/-- Fixture: an addition of SKU "A" at price "10", quantity 1. -/
def itemP1 : GuestCartItem := mkItem "A" "s5" "p5" "Widget" "10" 1

/-- Fixture: an addition of the same SKU "A" at price "999", quantity 2. -/
def itemP2 : GuestCartItem := mkItem "A" "s6" "p6" "Widget" "999" 2

/-- Fixture: an incoming item that merges into `itemTen`'s line but carries
different non-quantity fields. -/
def itemTenClash : GuestCartItem :=
  { sku := "SKU-10", sku_id := "sX", product_id := "pX", product_name := "Other",
    product_price := "99.99", product_image := some "img", quantity := 3,
    vendor_name := some "V" }

/-- The contribution of one line to the cart total:
`parseFloat(product_price) * quantity` in the JS number model. -/
def lineContribution (i : GuestCartItem) : Option ℚ :=
  jsMul (parseFloatQ i.product_price) (some (i.quantity : ℚ))

/-- Price book read off an addition list: the price string carried by the
first addition with the given `sku` (used to phrase per-SKU price
consistency). -/
def priceOf (l : List GuestCartItem) (s : String) : String :=
  ((l.find? (fun a => a.sku == s)).map (fun a => a.product_price)).getD ""

end MarketCart

namespace MarketCart

theorem parseFloatQ_ten : parseFloatQ "10.00" = some 10 := by
  norm_num [show parseFloatQ "10.00" = some ((1 : ℚ) * (10 + 0 / 10 ^ 2) * 10 ^ (0 : ℤ)) from rfl]

theorem parseFloatQ_five_fifty : parseFloatQ "5.50" = some (11 / 2) := by
  norm_num [show parseFloatQ "5.50" = some ((1 : ℚ) * (5 + 50 / 10 ^ 2) * 10 ^ (0 : ℤ)) from rfl]

theorem parseFloatQ_nineteen : parseFloatQ "19.99" = some (1999 / 100) := by
  norm_num [show parseFloatQ "19.99" = some ((1 : ℚ) * (19 + 99 / 10 ^ 2) * 10 ^ (0 : ℤ)) from rfl]

theorem parseFloatQ_ten_plain : parseFloatQ "10" = some 10 := by
  norm_num [show parseFloatQ "10" = some ((1 : ℚ) * 10 * 10 ^ (0 : ℤ)) from rfl]

theorem parseFloatQ_999 : parseFloatQ "999" = some 999 := by
  norm_num [show parseFloatQ "999" = some ((1 : ℚ) * 999 * 10 ^ (0 : ℤ)) from rfl]

theorem parseFloatQ_abc : parseFloatQ "abc" = none := rfl

/-- Claim C2, failing input: on the one-line cart `[itemTshirt]`,
`updateGuestItemQuantity "TSHIRT-M" 0` keeps the line with its quantity set to
`0`, while `removeGuestItem "TSHIRT-M"` deletes it, so the two results differ:
the store's update is not equivalent to removal at quantity `0`, contrary to
the specified behaviour. -/
theorem updateQuantity_zero_persists_line :
    updateGuestItemQuantity [itemTshirt] "TSHIRT-M" 0
        = [{ itemTshirt with quantity := 0 }] ∧
    removeGuestItem [itemTshirt] "TSHIRT-M" = [] ∧
    updateGuestItemQuantity [itemTshirt] "TSHIRT-M" 0
        ≠ removeGuestItem [itemTshirt] "TSHIRT-M" := by
  refine ⟨rfl, rfl, ?_⟩
  rw [show removeGuestItem [itemTshirt] "TSHIRT-M" = [] from rfl,
      show updateGuestItemQuantity [itemTshirt] "TSHIRT-M" 0
          = [{ itemTshirt with quantity := 0 }] from rfl]
  exact List.cons_ne_nil _ _

/-- Claim C3, failing input: with one corrupt price string `"abc"` in the cart,
`getGuestCartTotal` evaluates to `NaN` (modelled `none`) — the unparsable line
is not treated as contributing `0`, and the total is not the sum over the
remaining parsable lines (which would be `20`). -/
theorem unparsablePrice_total_NaN :
    parseFloatQ itemBad.product_price = none ∧
    getGuestCartTotal [itemBad, itemTen] = none ∧
    getGuestCartTotal [itemTen] = some 20 := by
  refine ⟨rfl, rfl, ?_⟩
  norm_num [getGuestCartTotal, jsAdd, jsMul, itemTen, mkItem, parseFloatQ_ten]

/-- Claim C4, failing input: the cart `[itemTshirt]` satisfies the quantity ≥ 1
invariant, yet after `updateGuestItemQuantity "TSHIRT-M" 0` the persisted line
list contains a line with non-positive quantity: the store operation does not
preserve the invariant. -/
theorem updateQuantity_breaks_positivity :
    ([itemTshirt] : List GuestCartItem).all (fun i => decide (1 ≤ i.quantity)) = true ∧
    (updateGuestItemQuantity [itemTshirt] "TSHIRT-M" 0).all
        (fun i => decide (1 ≤ i.quantity)) = false ∧
    (updateGuestItemQuantity [itemTshirt] "TSHIRT-M" 0).any
        (fun i => decide (i.quantity ≤ 0)) = true :=
  ⟨rfl, rfl, rfl⟩

/-- Claim C6: for every client state, the cart page's `calculateTotal` and the
checkout page's `calculateTotal` agree, in the guest regime both equal the
store's `getGuestCartTotal`, and the navbar badge count equals the store's
`getGuestItemCount`. -/
theorem projections_agree (isAuth : Bool) (cart : Option RemoteCart)
    (guestItems : List GuestCartItem) :
    cartPage_calculateTotal isAuth cart guestItems
        = checkoutPage_calculateTotal isAuth cart guestItems ∧
    cartPage_calculateTotal false cart guestItems = getGuestCartTotal guestItems ∧
    checkoutPage_calculateTotal false cart guestItems = getGuestCartTotal guestItems ∧
    navbar_itemCount false cart guestItems = getGuestItemCount guestItems := by
  refine ⟨?_, rfl, rfl, rfl⟩
  cases isAuth with
  | false => rfl
  | true => cases cart <;> rfl

/-- Claim C7: when the checkout mutation settles on its error path the guest
cart is left untouched, in both regimes; `clearGuestCart` runs only on the
success path of a guest (unauthenticated) checkout, and an authenticated
success also leaves the guest list alone. -/
theorem failedCheckout_preserves_guestCart (isAuth : Bool)
    (guestItems : List GuestCartItem) (e : String) (r : CheckoutResponse) :
    checkoutMutation_guestCartAfter isAuth guestItems (Except.error e) = guestItems ∧
    checkoutMutation_guestCartAfter false guestItems (Except.ok r)
        = clearGuestCart guestItems ∧
    checkoutMutation_guestCartAfter true guestItems (Except.ok r) = guestItems :=
  ⟨rfl, rfl, rfl⟩

/-- Claim C8 counterexample: the trace add-item, login, logout is a reachable
sequence whose final transition is a logout, yet the guest-cart line list
immediately afterwards still holds the item added before login — the Local
Cart Store does not start empty after logout. -/
theorem logout_leaves_stale_guest_cart :
    (runSteps initialState
        [AppStep.addItem itemTshirt, AppStep.login, AppStep.logout]).isAuthenticated
      = false ∧
    (runSteps initialState
        [AppStep.addItem itemTshirt, AppStep.login, AppStep.logout]).guestItems
      = [itemTshirt] ∧
    (runSteps initialState
        [AppStep.addItem itemTshirt, AppStep.login, AppStep.logout]).guestItems
      ≠ [] := by
  refine ⟨rfl, rfl, ?_⟩
  rw [show (runSteps initialState
      [AppStep.addItem itemTshirt, AppStep.login, AppStep.logout]).guestItems
      = [itemTshirt] from rfl]
  exact List.cons_ne_nil _ _

/-- Claim C8 amended: the logout transition only resets the authentication
flag; it never modifies the guest-cart line list, so the list after logout
equals the list before logout (and is empty only if it already was). -/
theorem logout_preserves_guestItems (s : AppState) :
    (appStep s AppStep.logout).guestItems = s.guestItems ∧
    (appStep s AppStep.logout).isAuthenticated = false :=
  ⟨rfl, rfl⟩

theorem addGuestItem_of_exists (c : List GuestCartItem) (item : GuestCartItem)
    (hex : ∃ j ∈ c, j.sku = item.sku) :
    addGuestItem c item
      = c.map (fun i =>
          if i.sku == item.sku then { i with quantity := i.quantity + item.quantity }
          else i) := by
  obtain ⟨j, hj, hsku⟩ := hex
  have hfind : (c.find? (fun i => i.sku == item.sku)).isSome := by
    rw [List.find?_isSome]
    exact ⟨j, hj, by simp [hsku]⟩
  simp only [addGuestItem, hfind, if_true]

theorem addGuestItem_of_forall_ne (c : List GuestCartItem) (item : GuestCartItem)
    (hne : ∀ j ∈ c, j.sku ≠ item.sku) :
    addGuestItem c item = c ++ [item] := by
  have hfind : c.find? (fun i => i.sku == item.sku) = none := by
    rw [List.find?_eq_none]
    intro x hx
    simp [hne x hx]
  simp [addGuestItem, hfind]

theorem foldl_addGuestItem_single_sku (rest : List GuestCartItem) :
    ∀ r : GuestCartItem, (∀ x ∈ rest, x.sku = r.sku) →
      List.foldl addGuestItem [r] rest
        = [{ r with quantity := r.quantity + (rest.map (fun a => a.quantity)).sum }] := by
  induction rest with
  | nil => intro r _; simp
  | cons b rest ih =>
    intro r h
    have hb : b.sku = r.sku := h b (List.mem_cons_self b rest)
    have hstep : addGuestItem [r] b = [{ r with quantity := r.quantity + b.quantity }] := by
      rw [addGuestItem_of_exists [r] b ⟨r, List.mem_cons_self r [], hb.symm⟩]
      simp [hb]
    rw [List.foldl_cons, hstep,
        ih { r with quantity := r.quantity + b.quantity }
          (fun x hx => h x (List.mem_cons_of_mem b hx))]
    simp [add_assoc]

/-- Claim C1: `addGuestItem` merge semantics.  When a line with the item's
`sku` exists, the cart keeps its length and, position by position, a line
with that `sku` gets its quantity incremented by the item's quantity while
any other line is untouched (insertion order preserved); when none exists the
item is appended as the new last line.  Consequently a nonempty sequence of
additions sharing one `sku`, applied to the empty cart, produces exactly one
line for that `sku`, whose quantity is the sum of the added quantities. -/
theorem addGuestItem_merge_spec (cart : List GuestCartItem) (item : GuestCartItem) :
    ((∃ j ∈ cart, j.sku = item.sku) →
      (addGuestItem cart item).length = cart.length ∧
      ∀ k : ℕ, ∀ j : GuestCartItem, cart[k]? = some j →
        (j.sku = item.sku →
          (addGuestItem cart item)[k]?
            = some { j with quantity := j.quantity + item.quantity }) ∧
        (j.sku ≠ item.sku → (addGuestItem cart item)[k]? = some j)) ∧
    ((∀ j ∈ cart, j.sku ≠ item.sku) → addGuestItem cart item = cart ++ [item]) ∧
    (∀ adds : List GuestCartItem, adds ≠ [] → (∀ a ∈ adds, a.sku = item.sku) →
      ∃ j : GuestCartItem,
        adds.foldl addGuestItem [] = [j] ∧ j.sku = item.sku ∧
        j.quantity = (adds.map (fun a => a.quantity)).sum) := by
  refine ⟨?_, addGuestItem_of_forall_ne cart item, ?_⟩
  · intro hex
    rw [addGuestItem_of_exists cart item hex]
    refine ⟨List.length_map _ _, ?_⟩
    intro k j hk
    constructor
    · intro hsku
      rw [List.getElem?_map, hk]
      simp [hsku]
    · intro hsku
      rw [List.getElem?_map, hk]
      simp [hsku]
  · intro adds hne hall
    match adds, hne with
    | a :: rest, _ =>
      have ha : a.sku = item.sku := hall a (List.mem_cons_self a rest)
      have hrest : ∀ x ∈ rest, x.sku = a.sku := by
        intro x hx
        rw [hall x (List.mem_cons_of_mem a hx), ha]
      refine ⟨{ a with quantity := a.quantity + (rest.map (fun x => x.quantity)).sum },
        ?_, ha, by simp⟩
      rw [List.foldl_cons,
          show addGuestItem [] a = [a] from rfl,
          foldl_addGuestItem_single_sku rest a hrest]

/-- Claim C1 witness: concrete instances of the three parts of the merge
specification. -/
theorem addGuestItem_merge_spec_witness :
    (addGuestItem [itemTen, itemFive] itemTenClash)[0]?
        = some { itemTen with quantity := 5 } ∧
    (addGuestItem [itemTen, itemFive] itemTenClash)[1]? = some itemFive ∧
    addGuestItem [itemFive] itemTen = [itemFive] ++ [itemTen] ∧
    (∃ j : GuestCartItem,
      ([itemTen, itemTenClash] : List GuestCartItem).foldl addGuestItem [] = [j] ∧
      j.sku = itemTenClash.sku ∧
      j.quantity = (([itemTen, itemTenClash] : List GuestCartItem).map
        (fun a => a.quantity)).sum) := by
  have h := addGuestItem_merge_spec [itemTen, itemFive] itemTenClash
  have h2 := addGuestItem_merge_spec [itemFive] itemTen
  have hex : ∃ j ∈ [itemTen, itemFive], j.sku = itemTenClash.sku :=
    ⟨itemTen, List.mem_cons_self _ _, rfl⟩
  refine ⟨?_, ?_, ?_, ?_⟩
  · exact ((h.1 hex).2 0 itemTen rfl).1 rfl
  · exact ((h.1 hex).2 1 itemFive rfl).2 (by decide)
  · refine h2.2.1 ?_
    intro j hj
    rw [List.mem_singleton.mp hj]
    decide
  · refine h.2.2 [itemTen, itemTenClash] (by simp) ?_
    intro a ha
    rcases List.mem_cons.mp ha with h' | h'
    · rw [h']; rfl
    · rw [List.mem_singleton.mp h']

/-- Claim C10: when `addGuestItem` merges into the (unique, by the SKU-identity
data-model invariant) existing line carrying the incoming item's `sku`, only
that line's quantity changes: the stored line keeps its `product_price`,
`product_name`, `sku_id`, `product_id`, `product_image` and `vendor_name`
(expressed by the record update, which mentions no field of the incoming item
except its quantity — in particular a different incoming price never
overwrites the stored one), and every other line is unchanged at its
position, so relative order is preserved. -/
theorem addGuestItem_merge_frame (cart : List GuestCartItem) (item : GuestCartItem)
    (hnodup : (cart.map (fun i => i.sku)).Nodup)
    (k : ℕ) (j : GuestCartItem) (hk : cart[k]? = some j) (hsku : j.sku = item.sku) :
    (addGuestItem cart item).length = cart.length ∧
    (addGuestItem cart item)[k]?
        = some { j with quantity := j.quantity + item.quantity } ∧
    ∀ m : ℕ, m ≠ k → ∀ i : GuestCartItem, cart[m]? = some i →
      (addGuestItem cart item)[m]? = some i := by
  have hmem : j ∈ cart := by
    obtain ⟨hlt, hgEq⟩ := List.getElem?_eq_some.mp hk
    exact hgEq ▸ List.getElem_mem hlt
  have heq := addGuestItem_of_exists cart item ⟨j, hmem, hsku⟩
  refine ⟨by rw [heq]; exact List.length_map _ _, ?_, ?_⟩
  · rw [heq, List.getElem?_map, hk]
    simp [hsku]
  · intro m hm i hmi
    have hne : i.sku ≠ item.sku := by
      intro hisku
      apply hm
      have h1 : (cart.map (fun x => x.sku))[m]? = some item.sku := by
        rw [List.getElem?_map, hmi]
        simp [hisku]
      have h2 : (cart.map (fun x => x.sku))[k]? = some item.sku := by
        rw [List.getElem?_map, hk]
        simp [hsku]
      have hmlen : m < (cart.map (fun x => x.sku)).length := by
        by_contra hlen
        rw [List.getElem?_eq_none (le_of_not_lt hlen)] at h1
        exact Option.noConfusion h1
      exact List.getElem?_inj hmlen hnodup (h1.trans h2.symm)
    rw [heq, List.getElem?_map, hmi]
    simp [hne]

/-- Claim C10 witness: merging into the second line of a two-line cart bumps
only that line's quantity and leaves the first line in place. -/
theorem addGuestItem_merge_frame_witness :
    (addGuestItem [itemFive, itemTen] itemTenClash).length = 2 ∧
    (addGuestItem [itemFive, itemTen] itemTenClash)[1]?
        = some { itemTen with quantity := 5 } ∧
    (addGuestItem [itemFive, itemTen] itemTenClash)[0]? = some itemFive := by
  have h := addGuestItem_merge_frame [itemFive, itemTen] itemTenClash
    (by decide) 1 itemTen rfl rfl
  exact ⟨h.1, h.2.1, h.2.2 0 (by decide) itemFive rfl⟩

theorem total_all_parsable (l : List GuestCartItem) :
    ∀ a : ℚ,
      (∀ i ∈ l, (parseFloatQ i.product_price).isSome) →
      List.foldl
          (fun total item =>
            jsAdd total (jsMul (parseFloatQ item.product_price) (some (item.quantity : ℚ))))
          (some a) l
        = some (a + (l.map
            (fun i => (parseFloatQ i.product_price).getD 0 * (i.quantity : ℚ))).sum) := by
  induction l with
  | nil => intro a _; simp
  | cons i l ih =>
    intro a h
    obtain ⟨p, hp⟩ := Option.isSome_iff_exists.mp (h i (List.mem_cons_self i l))
    rw [List.foldl_cons,
        show jsAdd (some a) (jsMul (parseFloatQ i.product_price) (some (i.quantity : ℚ)))
            = some (a + p * (i.quantity : ℚ)) by rw [hp]; rfl,
        ih _ (fun x hx => h x (List.mem_cons_of_mem i hx)),
        List.map_cons, List.sum_cons, hp]
    simp [add_assoc]

theorem count_foldl_eq_sum (l : List GuestCartItem) :
    ∀ a : Int,
      List.foldl (fun count item => count + item.quantity) a l
        = a + (l.map (fun i => i.quantity)).sum := by
  induction l with
  | nil => intro a; simp
  | cons i l ih =>
    intro a
    rw [List.foldl_cons, ih, List.map_cons, List.sum_cons, add_assoc]

/-- Claim C5: for a cart whose price strings all parse, `getGuestCartTotal`
returns the sum over the lines of parsed unit price times quantity, and
`getGuestItemCount` returns the sum of quantities; in particular the cart
built by adding the two distinct SKUs priced "10.00" and "5.50" at
quantities 2 and 1 has total 25.50 (= 51/2) and count 3. -/
theorem guest_total_count_spec (items : List GuestCartItem)
    (h : ∀ i ∈ items, (parseFloatQ i.product_price).isSome) :
    getGuestCartTotal items
        = some ((items.map
            (fun i => (parseFloatQ i.product_price).getD 0 * (i.quantity : ℚ))).sum) ∧
    getGuestItemCount items = (items.map (fun i => i.quantity)).sum ∧
    getGuestCartTotal (([itemTen, itemFive] : List GuestCartItem).foldl addGuestItem [])
        = some (51 / 2) ∧
    getGuestItemCount (([itemTen, itemFive] : List GuestCartItem).foldl addGuestItem [])
        = 3 := by
  refine ⟨?_, (count_foldl_eq_sum items 0).trans (zero_add _), ?_, rfl⟩
  · exact (total_all_parsable items 0 h).trans (by rw [zero_add])
  · rw [show ([itemTen, itemFive] : List GuestCartItem).foldl addGuestItem []
        = [itemTen, itemFive] from rfl]
    norm_num [getGuestCartTotal, jsAdd, jsMul, itemTen, itemFive, mkItem,
      parseFloatQ_ten, parseFloatQ_five_fifty]

/-- Claim C5 witness: the two-SKU cart has all prices parsable, and the
theorem's total formula applies to it. -/
theorem guest_total_count_spec_witness :
    (∀ i ∈ ([itemTen, itemFive] : List GuestCartItem),
        (parseFloatQ i.product_price).isSome) ∧
    getGuestCartTotal [itemTen, itemFive]
      = some ((([itemTen, itemFive] : List GuestCartItem).map
          (fun i => (parseFloatQ i.product_price).getD 0 * (i.quantity : ℚ))).sum) :=
  ⟨by decide, (guest_total_count_spec [itemTen, itemFive] (by decide)).1⟩

theorem jsAdd_zero_left (x : Option ℚ) : jsAdd (some 0) x = x := by
  cases x <;> simp [jsAdd]

theorem jsAdd_zero_right (x : Option ℚ) : jsAdd x (some 0) = x := by
  cases x <;> simp [jsAdd]

theorem jsAdd_assoc (x y z : Option ℚ) :
    jsAdd (jsAdd x y) z = jsAdd x (jsAdd y z) := by
  cases x <;> cases y <;> cases z <;> simp [jsAdd, add_assoc]

theorem jsAdd_right_comm (x y z : Option ℚ) :
    jsAdd (jsAdd x y) z = jsAdd (jsAdd x z) y := by
  cases x <;> cases y <;> cases z <;> simp [jsAdd, add_right_comm]

theorem getGuestCartTotal_eq_contrib_foldl (l : List GuestCartItem) :
    getGuestCartTotal l
      = l.foldl (fun t i => jsAdd t (lineContribution i)) (some 0) := rfl

theorem contrib_foldl_shift (l : List GuestCartItem) :
    ∀ a : Option ℚ,
      l.foldl (fun t i => jsAdd t (lineContribution i)) a
        = jsAdd a (l.foldl (fun t i => jsAdd t (lineContribution i)) (some 0)) := by
  induction l with
  | nil => intro a; simp [jsAdd_zero_right]
  | cons i l ih =>
    intro a
    rw [List.foldl_cons, List.foldl_cons, ih (jsAdd a (lineContribution i)),
        ih (jsAdd (some 0) (lineContribution i)), jsAdd_zero_left, jsAdd_assoc]

theorem contrib_bump (j item : GuestCartItem)
    (hprice : j.product_price = item.product_price) :
    lineContribution { j with quantity := j.quantity + item.quantity }
      = jsAdd (lineContribution j) (lineContribution item) := by
  obtain ⟨s, si, pi, pn, pp, im, q, vn⟩ := j
  simp only [lineContribution] at *
  subst hprice
  cases parseFloatQ item.product_price with
  | none => rfl
  | some p =>
    simp only [jsMul, jsAdd]
    push_cast
    ring_nf

theorem map_bump_id (item : GuestCartItem) (l : List GuestCartItem)
    (h : ∀ x ∈ l, x.sku ≠ item.sku) :
    l.map (fun i =>
        if i.sku == item.sku then { i with quantity := i.quantity + item.quantity }
        else i) = l := by
  induction l with
  | nil => rfl
  | cons x l ih =>
    have hx : (x.sku == item.sku) = false := by
      rw [beq_eq_false_iff_ne]
      exact h x (List.mem_cons_self x l)
    rw [List.map_cons, ih (fun y hy => h y (List.mem_cons_of_mem x hy))]
    simp [hx]

theorem total_bump (item : GuestCartItem) :
    ∀ cart : List GuestCartItem,
      (cart.map (fun i => i.sku)).Nodup →
      (∀ j ∈ cart, j.sku = item.sku → j.product_price = item.product_price) →
      (∃ j ∈ cart, j.sku = item.sku) →
      getGuestCartTotal
          (cart.map (fun i =>
            if i.sku == item.sku then { i with quantity := i.quantity + item.quantity }
            else i))
        = jsAdd (getGuestCartTotal cart) (lineContribution item) := by
  intro cart
  induction cart with
  | nil => intro _ _ hex; exact absurd hex (by simp)
  | cons j rest ih =>
    intro hnodup hprice hex
    rw [List.map_cons] at hnodup
    have hnodup' := (List.nodup_cons.mp hnodup).2
    have hnotin := (List.nodup_cons.mp hnodup).1
    simp only [getGuestCartTotal_eq_contrib_foldl]
    by_cases hj : j.sku = item.sku
    · have hrest_ne : ∀ x ∈ rest, x.sku ≠ item.sku := by
        intro x hx hxs
        exact hnotin (List.mem_map.mpr ⟨x, hx, hxs.trans hj.symm⟩)
      have hbj : (j.sku == item.sku) = true := by simp [hj]
      simp only [List.map_cons, map_bump_id item rest hrest_ne, hbj, if_true,
        List.foldl_cons]
      rw [contrib_foldl_shift rest
            (jsAdd (some 0)
              (lineContribution { j with quantity := j.quantity + item.quantity })),
          contrib_foldl_shift rest (jsAdd (some 0) (lineContribution j)),
          jsAdd_zero_left, jsAdd_zero_left,
          contrib_bump j item (hprice j (List.mem_cons_self j rest) hj),
          jsAdd_right_comm]
    · have hbjf : (j.sku == item.sku) = false := by
        rw [beq_eq_false_iff_ne]
        exact hj
      obtain ⟨x, hx, hxs⟩ := hex
      have hxrest : x ∈ rest := by
        rcases List.mem_cons.mp hx with h' | h'
        · exact absurd (h' ▸ hxs) hj
        · exact h'
      have ihh := ih hnodup'
        (fun y hy => hprice y (List.mem_cons_of_mem j hy)) ⟨x, hxrest, hxs⟩
      simp only [getGuestCartTotal_eq_contrib_foldl] at ihh
      simp only [List.map_cons, hbjf, Bool.false_eq_true, if_false, List.foldl_cons]
      rw [contrib_foldl_shift
            (rest.map (fun i =>
              if i.sku == item.sku
              then { i with quantity := i.quantity + item.quantity } else i))
            (jsAdd (some 0) (lineContribution j)),
          ihh,
          contrib_foldl_shift rest (jsAdd (some 0) (lineContribution j)),
          ← jsAdd_assoc]

theorem total_addGuestItem (cart : List GuestCartItem) (item : GuestCartItem)
    (hnodup : (cart.map (fun i => i.sku)).Nodup)
    (hprice : ∀ j ∈ cart, j.sku = item.sku → j.product_price = item.product_price) :
    getGuestCartTotal (addGuestItem cart item)
      = jsAdd (getGuestCartTotal cart) (lineContribution item) := by
  by_cases hex : ∃ j ∈ cart, j.sku = item.sku
  · rw [addGuestItem_of_exists cart item hex]
    exact total_bump item cart hnodup hprice hex
  · push_neg at hex
    rw [addGuestItem_of_forall_ne cart item hex,
        getGuestCartTotal_eq_contrib_foldl, getGuestCartTotal_eq_contrib_foldl,
        List.foldl_append]
    rfl

theorem addGuestItem_skus_nodup (cart : List GuestCartItem) (item : GuestCartItem)
    (h : (cart.map (fun i => i.sku)).Nodup) :
    ((addGuestItem cart item).map (fun i => i.sku)).Nodup := by
  by_cases hex : ∃ j ∈ cart, j.sku = item.sku
  · rw [addGuestItem_of_exists cart item hex, List.map_map]
    have hcomp :
        ((fun i => i.sku) ∘ (fun i =>
          if i.sku == item.sku then { i with quantity := i.quantity + item.quantity }
          else i)) = fun i : GuestCartItem => i.sku := by
      funext i
      by_cases hi : i.sku = item.sku <;> simp [Function.comp, hi]
    rw [hcomp]
    exact h
  · push_neg at hex
    rw [addGuestItem_of_forall_ne cart item hex, List.map_append,
        List.nodup_append]
    refine ⟨h, List.nodup_singleton _, ?_⟩
    intro a ha hb
    obtain ⟨x, hx, hxs⟩ := List.mem_map.mp ha
    simp only [List.map_cons, List.map_nil, List.mem_singleton] at hb
    exact hex x hx (hxs.trans hb)

theorem addGuestItem_prices (pr : String → String) (cart : List GuestCartItem)
    (item : GuestCartItem)
    (hc : ∀ j ∈ cart, j.product_price = pr j.sku)
    (hi : item.product_price = pr item.sku) :
    ∀ j ∈ addGuestItem cart item, j.product_price = pr j.sku := by
  by_cases hex : ∃ j ∈ cart, j.sku = item.sku
  · rw [addGuestItem_of_exists cart item hex]
    intro j hj
    obtain ⟨x, hx, hxeq⟩ := List.mem_map.mp hj
    rw [← hxeq]
    by_cases hxs : x.sku = item.sku
    · have hb : (x.sku == item.sku) = true := by simp [hxs]
      simp only [hb, if_true]
      show x.product_price = pr x.sku
      exact hc x hx
    · have hb : (x.sku == item.sku) = false := by
        rw [beq_eq_false_iff_ne]
        exact hxs
      simp only [hb, Bool.false_eq_true, if_false]
      exact hc x hx
  · push_neg at hex
    rw [addGuestItem_of_forall_ne cart item hex]
    intro j hj
    rcases List.mem_append.mp hj with h' | h'
    · exact hc j h'
    · rw [List.mem_singleton.mp h']
      exact hi

theorem total_foldl_adds (l : List GuestCartItem) (pr : String → String) :
    ∀ cart : List GuestCartItem,
      (cart.map (fun i => i.sku)).Nodup →
      (∀ j ∈ cart, j.product_price = pr j.sku) →
      (∀ a ∈ l, a.product_price = pr a.sku) →
      getGuestCartTotal (l.foldl addGuestItem cart)
        = l.foldl (fun t a => jsAdd t (lineContribution a)) (getGuestCartTotal cart) := by
  induction l with
  | nil => intro cart _ _ _; rfl
  | cons a l ih =>
    intro cart hnodup hc hl
    have ha : a.product_price = pr a.sku := hl a (List.mem_cons_self a l)
    have hprice : ∀ j ∈ cart, j.sku = a.sku → j.product_price = a.product_price := by
      intro j hj hjs
      rw [hc j hj, hjs, ha]
    rw [List.foldl_cons, List.foldl_cons,
        ih (addGuestItem cart a)
          (addGuestItem_skus_nodup cart a hnodup)
          (addGuestItem_prices pr cart a hc ha)
          (fun x hx => hl x (List.mem_cons_of_mem a hx)),
        total_addGuestItem cart a hnodup hprice]

theorem total_foldl_adds_from_empty (l : List GuestCartItem) (pr : String → String)
    (hl : ∀ a ∈ l, a.product_price = pr a.sku) :
    getGuestCartTotal (l.foldl addGuestItem [])
      = l.foldl (fun t a => jsAdd t (lineContribution a)) (some 0) :=
  total_foldl_adds l pr [] (by simp) (by simp) hl

theorem contrib_foldl_perm (l₁ l₂ : List GuestCartItem) (h : l₁.Perm l₂) :
    l₁.foldl (fun t a => jsAdd t (lineContribution a)) (some 0)
      = l₂.foldl (fun t a => jsAdd t (lineContribution a)) (some 0) :=
  h.foldl_eq' (fun x _ y _ z => by rw [jsAdd_right_comm]) (some 0)

theorem priceOf_spec (l : List GuestCartItem)
    (h : ∀ a ∈ l, ∀ b ∈ l, a.sku = b.sku → a.product_price = b.product_price) :
    ∀ a ∈ l, a.product_price = priceOf l a.sku := by
  intro a ha
  cases hf : l.find? (fun x => x.sku == a.sku) with
  | none =>
    exfalso
    have := List.find?_eq_none.mp hf a ha
    simp at this
  | some b =>
    have hbmem : b ∈ l := List.mem_of_find?_eq_some hf
    have hbsku : b.sku = a.sku := by
      have := List.find?_some hf
      simpa using this
    rw [show priceOf l a.sku = b.product_price by simp [priceOf, hf]]
    exact h a ha b hbmem hbsku.symm

/-- Claim C9 counterexample: the two addition lists below are permutations of
each other (same multiset of additions), yet folding them from the empty cart
gives totals 30 and 2997: the merge keeps the price of the line it merges
into, so reordering additions of one SKU carrying different prices changes
the total. -/
theorem total_not_perm_invariant :
    ([itemP1, itemP2] : List GuestCartItem).Perm [itemP2, itemP1] ∧
    getGuestCartTotal (([itemP1, itemP2] : List GuestCartItem).foldl addGuestItem [])
        = some 30 ∧
    getGuestCartTotal (([itemP2, itemP1] : List GuestCartItem).foldl addGuestItem [])
        = some 2997 ∧
    getGuestCartTotal (([itemP1, itemP2] : List GuestCartItem).foldl addGuestItem [])
        ≠ getGuestCartTotal (([itemP2, itemP1] : List GuestCartItem).foldl addGuestItem []) := by
  have h1 : getGuestCartTotal (([itemP1, itemP2] : List GuestCartItem).foldl addGuestItem [])
      = some 30 := by
    rw [show ([itemP1, itemP2] : List GuestCartItem).foldl addGuestItem []
        = [{ itemP1 with quantity := 3 }] from rfl]
    norm_num [getGuestCartTotal, jsAdd, jsMul, itemP1, mkItem, parseFloatQ_ten_plain]
  have h2 : getGuestCartTotal (([itemP2, itemP1] : List GuestCartItem).foldl addGuestItem [])
      = some 2997 := by
    rw [show ([itemP2, itemP1] : List GuestCartItem).foldl addGuestItem []
        = [{ itemP2 with quantity := 3 }] from rfl]
    norm_num [getGuestCartTotal, jsAdd, jsMul, itemP2, mkItem, parseFloatQ_999]
  refine ⟨List.Perm.swap itemP2 itemP1 [], h1, h2, ?_⟩
  rw [h1, h2]
  intro hcontra
  exact absurd (Option.some.inj hcontra) (by norm_num)

/-- Claim C9 amended: the total is invariant under reordering of the
additions provided any two additions sharing a `sku` carry the same
`product_price` (the counterexample shows the proviso is necessary: the merge
discards the incoming price). -/
theorem total_perm_invariant_same_sku_price (l₁ l₂ : List GuestCartItem)
    (hperm : l₁.Perm l₂)
    (hprice : ∀ a ∈ l₁, ∀ b ∈ l₁, a.sku = b.sku → a.product_price = b.product_price) :
    getGuestCartTotal (l₁.foldl addGuestItem [])
      = getGuestCartTotal (l₂.foldl addGuestItem []) := by
  rw [total_foldl_adds_from_empty l₁ (priceOf l₁) (priceOf_spec l₁ hprice),
      total_foldl_adds_from_empty l₂ (priceOf l₁)
        (fun a ha => priceOf_spec l₁ hprice a (hperm.symm.subset ha)),
      contrib_foldl_perm l₁ l₂ hperm]

/-- Claim C9 witness: two concrete permuted addition lists with per-SKU
consistent prices give the same total. -/
theorem total_perm_invariant_same_sku_price_witness :
    getGuestCartTotal (([itemTen, itemFive] : List GuestCartItem).foldl addGuestItem [])
      = getGuestCartTotal (([itemFive, itemTen] : List GuestCartItem).foldl addGuestItem []) :=
  total_perm_invariant_same_sku_price [itemTen, itemFive] [itemFive, itemTen]
    (List.Perm.swap itemFive itemTen []) (by decide)

end MarketCart
